import Mathlib

/-!
Shallow embedding of the URL-shortener core (Node/Express + Postgres + Redis).

The definitions below are translated from the repository sources:
- src/config/redis.js          (the Cache helper: get / set / del / increment)
- src/models/url.model.js      (URLModel: short-code generation and SQL queries)
- src/controllers/url.controller.js (URLController: create / redirect / delete)
- src/middleware/rateLimiter.js (globalLimiter, createUrlLimiter, abuseDetection,
                                 trackSuspiciousUrl)
- src/routes/url.routes.js and the app wiring (middleware order per route)

Time is a Nat parameter threaded through every operation (seconds; the one
millisecond constant in the source, 3600000 ms, is rendered as 3600 s).
Randomness (nanoid) is a parameter: a seed function producing alphabet indices.
-/

namespace UrlShortener

/-- A row of the urls table (database/schema.sql). -/
structure UrlRecord where
  id : Nat
  short_code : String
  original_url : String
  created_at : Nat
  expires_at : Option Nat
  click_count : Nat
  last_accessed : Option Nat
  creator_ip : String
  is_active : Bool
deriving DecidableEq

/-- Values stored in the cache: URL records (JSON), counters (redis INCR),
and the blocked-IP marker object written by abuseDetection. -/
inductive CacheVal where
  | urlRec (r : UrlRecord)
  | num (n : Nat)
  | blockedEntry (unblockAt : Nat)
deriving DecidableEq

/-- One cache entry: key, value, absolute expiry instant. -/
abbrev CacheEntry := String × CacheVal × Nat

/-- The shared Redis cache, plus the CACHE_ENABLED flag (src/config/redis.js). -/
structure Cache where
  enabled : Bool
  entries : List CacheEntry
deriving DecidableEq

/-- Redis lookup: first entry under the key, visible only while unexpired. -/
def rawGet (l : List CacheEntry) (now : Nat) (k : String) : Option CacheVal :=
  match l.find? (fun e => e.1 == k) with
  | some e => if now < e.2.2 then some e.2.1 else none
  | none => none

/-- cache.get (redis.js): returns null when CACHE_ENABLED is off. -/
def cacheGet (c : Cache) (now : Nat) (k : String) : Option CacheVal :=
  if c.enabled then rawGet c.entries now k else none

/-- cache.set (redis.js, setEx): no-op when CACHE_ENABLED is off. -/
def cacheSet (c : Cache) (now : Nat) (k : String) (v : CacheVal) (ttl : Nat) : Cache :=
  if c.enabled then
    { c with entries := (k, v, now + ttl) :: c.entries.filter (fun e => !(e.1 == k)) }
  else c

/-- cache.del (redis.js). Note: the source does NOT consult CACHE_ENABLED here. -/
def cacheDel (c : Cache) (k : String) : Cache :=
  { c with entries := c.entries.filter (fun e => !(e.1 == k)) }

/-- cache.increment (redis.js): INCR, then EXPIRE when the counter is fresh.
Note: the source does NOT consult CACHE_ENABLED here.  INCR on a non-numeric
value raises; the helper catches and returns 0 leaving the state alone. -/
def cacheIncrement (c : Cache) (now : Nat) (k : String) (ttl : Nat) : Nat × Cache :=
  match rawGet c.entries now k with
  | some (CacheVal.num n) =>
      (n + 1,
       { c with entries :=
           c.entries.map (fun e => if e.1 == k then (e.1, CacheVal.num (n + 1), e.2.2) else e) })
  | some _ => (0, c)
  | none =>
      (1, { c with entries := (k, CacheVal.num 1, now + ttl) :: c.entries.filter (fun e => !(e.1 == k)) })

/-- The urls table together with the BIGSERIAL id sequence. -/
structure Database where
  rows : List UrlRecord
  nextId : Nat
deriving DecidableEq

/-- The 57-symbol nanoid alphabet from src/models/url.model.js line 5. -/
def alphabet : List Char :=
  "0123456789ABCDEFGHJKLMNPQRSTUVWXYZabcdefghjkmnpqrstuvwxyz".data

/-- One random character: the seed gives an index into the alphabet. -/
def nanoidChar (n : Nat) : Char := alphabet.getD (n % 57) '0'

/-- One nanoid draw of the given length from one per-draw seed function. -/
def nanoid (len : Nat) (seed : Nat → Nat) : String :=
  ⟨(List.range len).map (fun i => nanoidChar (seed i))⟩

/-- SELECT id FROM urls WHERE short_code = $1 — nonempty result?  Note the
query has no is_active filter: the check is against ALL rows. -/
def hasCode (rows : List UrlRecord) (code : String) : Bool :=
  rows.any (fun r => r.short_code == code)

/-- The collision-retry loop: return the first candidate not present in the
store; none when every candidate collides. -/
def firstFresh (rows : List UrlRecord) : List String → Option String
  | [] => none
  | cde :: rest => if hasCode rows cde then firstFresh rows rest else some cde

/-- URLModel.generateUniqueShortCode: up to maxAttempts draws of length 7,
each checked against the store; afterwards one unchecked draw of length 10. -/
def generateUniqueShortCode (rows : List UrlRecord) (seeds : Nat → Nat → Nat)
    (maxAttempts : Nat := 5) : String :=
  match firstFresh rows ((List.range maxAttempts).map (fun i => nanoid 7 (seeds i))) with
  | some cde => cde
  | none => nanoid 10 (seeds maxAttempts)

/-- WHERE is_active = TRUE AND (expires_at IS NULL OR expires_at > now). -/
def activeMatch (now : Nat) (r : UrlRecord) : Bool :=
  r.is_active && (match r.expires_at with
    | none => true
    | some t => decide (now < t))

/-- URLModel.findByShortCode. -/
def findByShortCode (db : Database) (now : Nat) (code : String) : Option UrlRecord :=
  (db.rows.filter (fun r => r.short_code == code && activeMatch now r)).head?

/-- ORDER BY created_at DESC LIMIT 1 over a filtered row list. -/
def mostRecent : List UrlRecord → Option UrlRecord
  | [] => none
  | r :: rs =>
    match mostRecent rs with
    | none => some r
    | some s => if r.created_at < s.created_at then some s else some r

/-- URLModel.findByOriginalUrl. -/
def findByOriginalUrl (db : Database) (now : Nat) (url : String) : Option UrlRecord :=
  mostRecent (db.rows.filter (fun r => r.original_url == url && activeMatch now r))

/-- JS truthiness of the optional expiresIn body field (0 is falsy). -/
def truthy : Option Nat → Bool
  | none => false
  | some e => !(e == 0)

/-- URLModel.create: generate a code, compute expires_at, INSERT RETURNING. -/
def modelCreate (db : Database) (now : Nat) (url ip : String) (expiresIn : Option Nat)
    (seeds : Nat → Nat → Nat) : UrlRecord × Database :=
  let code := generateUniqueShortCode db.rows seeds 5
  let expiresAt : Option Nat :=
    match expiresIn with
    | some e => if e == 0 then none else some (now + e)
    | none => none
  let r : UrlRecord :=
    { id := db.nextId, short_code := code, original_url := url, created_at := now,
      expires_at := expiresAt, click_count := 0, last_accessed := none,
      creator_ip := ip, is_active := true }
  (r, { rows := db.rows ++ [r], nextId := db.nextId + 1 })

/-- The row-level effect of the soft-delete UPDATE: flip is_active on the
rows whose short_code matches. -/
def softDeleteRow (code : String) (r : UrlRecord) : UrlRecord :=
  if r.short_code == code then { r with is_active := false } else r

/-- The table after the soft-delete UPDATE. -/
def modelDeleteRows (db : Database) (code : String) : Database :=
  { db with rows := db.rows.map (softDeleteRow code) }

/-- The RETURNING * result of the soft-delete UPDATE: result.rows[0], the
first (post-update) row whose short_code matches. -/
def modelDeleteReturning (db : Database) (code : String) : Option UrlRecord :=
  ((db.rows.map (softDeleteRow code)).filter (fun r => r.short_code == code)).head?

/-- UPDATE urls SET is_active = FALSE WHERE short_code = $1 RETURNING *. -/
def modelDelete (db : Database) (code : String) : Option UrlRecord × Database :=
  (modelDeleteReturning db code, modelDeleteRows db code)

/-- Char-list version of: pat occurs at the start of s. -/
def startsWithL : List Char → List Char → Bool
  | [], _ => true
  | _ :: _, [] => false
  | p :: ps, c :: cs => (p == c) && startsWithL ps cs

/-- Char-list version of: pat occurs somewhere inside s. -/
def containsL (pat : List Char) : List Char → Bool
  | [] => pat.isEmpty
  | c :: cs => startsWithL pat (c :: cs) || containsL pat cs

/-- Char-list version of: pat occurs at the end of s. -/
def endsWithL (pat s : List Char) : Bool :=
  startsWithL pat.reverse s.reverse

/-- Lower-cased character list of a string (the i flag of the regexes). -/
def lowerOf (s : String) : List Char := s.data.map Char.toLower

/-- Case-insensitive substring test (regex /pat/i with no anchors). -/
def matchesSub (pat url : String) : Bool := containsL (lowerOf pat) (lowerOf url)

/-- Case-insensitive suffix test (regex anchored at the end). -/
def matchesSuffix (pat url : String) : Bool := endsWithL (lowerOf pat) (lowerOf url)

/-- The suspiciousPatterns list of rateLimiter.js lines 86-95. -/
def isSuspiciousUrl (url : String) : Bool :=
  matchesSub "malware" url || matchesSub "phishing" url ||
  matchesSuffix ".exe" url || matchesSuffix ".scr" url ||
  matchesSub "bit.ly" url || matchesSub "tinyurl.com" url

/-- trackSuspiciousUrl (rateLimiter.js): on a pattern match, increment the
abuse counter with a 1-hour expiry and report true; otherwise report false. -/
def trackSuspiciousUrl (c : Cache) (now : Nat) (ip url : String) : Bool × Cache :=
  if isSuspiciousUrl url then
    (true, (cacheIncrement c now ("abuse:" ++ ip) 3600).2)
  else (false, c)

/-- Outcome of the abuseDetection middleware. -/
inductive GuardOut where
  | blockedAlready (unblockAt : Nat)
  | blockedNow (unblockAt : Nat)
  | pass
deriving DecidableEq

/-- abuseDetection (rateLimiter.js): reject when blocked:{ip} exists; block
and reject when the abuse counter exceeds 50; otherwise fall through. -/
def abuseDetection (c : Cache) (now : Nat) (ip : String) : GuardOut × Cache :=
  match cacheGet c now ("blocked:" ++ ip) with
  | some v =>
      (GuardOut.blockedAlready (match v with
        | CacheVal.blockedEntry t => t
        | _ => 0), c)
  | none =>
      let cnt : Nat :=
        match cacheGet c now ("abuse:" ++ ip) with
        | some (CacheVal.num n) => n
        | _ => 0
      if 50 < cnt then
        (GuardOut.blockedNow (now + 3600),
         cacheSet c now ("blocked:" ++ ip) (CacheVal.blockedEntry (now + 3600)) 3600)
      else (GuardOut.pass, c)

/-- The globalLimiter (rateLimiter.js lines 7-27): its store increments the
shared cache key ratelimit:{ip} with a 900 s window; limit 100. -/
def globalRateLimit (c : Cache) (now : Nat) (ip : String) : Bool × Cache :=
  let r := cacheIncrement c now ("ratelimit:" ++ ip) 900
  (decide (r.1 ≤ 100), r.2)

/-- Per-process memory store of the createUrlLimiter: ip, hit count, window
end.  rateLimiter.js lines 32-40 configure no external store, so the library
falls back to its in-process default. -/
structure Instance where
  hits : List (String × Nat × Nat)
deriving DecidableEq

/-- createUrlLimiter (rateLimiter.js): 10 creations per 15 minutes per IP,
state held in the per-process memory store. -/
def createUrlLimiter (inst : Instance) (now : Nat) (ip : String) : Bool × Instance :=
  match inst.hits.find? (fun e => e.1 == ip) with
  | some e =>
      if now < e.2.2 then
        (decide (e.2.1 + 1 ≤ 10),
         ⟨(ip, e.2.1 + 1, e.2.2) :: inst.hits.filter (fun x => !(x.1 == ip))⟩)
      else (true, ⟨(ip, 1, now + 900) :: inst.hits.filter (fun x => !(x.1 == ip))⟩)
  | none => (true, ⟨(ip, 1, now + 900) :: inst.hits.filter (fun x => !(x.1 == ip))⟩)

/-- Response of URLController.createShortUrl. -/
inductive CreateResp where
  | suspiciousRejected
  | existing (r : UrlRecord)
  | created (r : UrlRecord)
deriving DecidableEq

/-- State and response after URLController.createShortUrl. -/
structure CreateOut where
  resp : CreateResp
  cache : Cache
  db : Database
deriving DecidableEq

/-- Controller lines 22-31: check the cache for url:{url}; on miss query the
store and populate the cache on a hit. -/
def lookupExisting (c : Cache) (db : Database) (now : Nat) (url : String) :
    Option UrlRecord × Cache :=
  match cacheGet c now ("url:" ++ url) with
  | some (CacheVal.urlRec r) => (some r, c)
  | _ =>
    match findByOriginalUrl db now url with
    | some r => (some r, cacheSet c now ("url:" ++ url) (CacheVal.urlRec r) 86400)
    | none => (none, c)

/-- Controller lines 46-62: create the record, then write-through both cache
keys (short:{code} and url:{originalUrl}) after the store commit. -/
def doCreate (c2 : Cache) (db : Database) (now : Nat) (ip url : String)
    (expiresIn : Option Nat) (seeds : Nat → Nat → Nat) : CreateOut :=
  let cr := modelCreate db now url ip expiresIn seeds
  let c3 := cacheSet c2 now ("short:" ++ cr.1.short_code) (CacheVal.urlRec cr.1) 86400
  let c4 := cacheSet c3 now ("url:" ++ url) (CacheVal.urlRec cr.1) 86400
  ⟨CreateResp.created cr.1, c4, cr.2⟩

/-- URLController.createShortUrl (url.controller.js lines 9-69). -/
def createShortUrl (c : Cache) (db : Database) (now : Nat) (ip url : String)
    (expiresIn : Option Nat) (seeds : Nat → Nat → Nat) : CreateOut :=
  let t := trackSuspiciousUrl c now ip url
  if t.1 then ⟨CreateResp.suspiciousRejected, t.2, db⟩
  else
    let le := lookupExisting t.2 db now url
    match le.1, truthy expiresIn with
    | some r, false => ⟨CreateResp.existing r, le.2, db⟩
    | _, _ => doCreate le.2 db now ip url expiresIn seeds

/-- Response of the redirect endpoint. -/
inductive RedirectResp where
  | rateLimited
  | redirect (originalUrl : String)
  | notFound
deriving DecidableEq

/-- State and response after URLController.redirectToOriginal. -/
structure RedirectOut where
  resp : RedirectResp
  cache : Cache
deriving DecidableEq

/-- URLController.redirectToOriginal (url.controller.js lines 74-113): cache
hit wins with no further check; otherwise the store is queried with the
active/unexpired filter and a hit repopulates the cache. -/
def redirectToOriginal (c : Cache) (db : Database) (now : Nat) (shortCode : String) :
    RedirectOut :=
  match cacheGet c now ("short:" ++ shortCode) with
  | some (CacheVal.urlRec r) => ⟨RedirectResp.redirect r.original_url, c⟩
  | _ =>
    match findByShortCode db now shortCode with
    | some r =>
        ⟨RedirectResp.redirect r.original_url,
         cacheSet c now ("short:" ++ shortCode) (CacheVal.urlRec r) 86400⟩
    | none => ⟨RedirectResp.notFound, c⟩

/-- Response of URLController.deleteShortUrl; the 200 body carries only a
success message, the record itself is kept here for specification purposes. -/
inductive DeleteResp where
  | success (r : UrlRecord)
  | notFound
deriving DecidableEq

/-- State and response after URLController.deleteShortUrl. -/
structure DeleteOut where
  resp : DeleteResp
  cache : Cache
  db : Database
deriving DecidableEq

/-- URLController.deleteShortUrl (url.controller.js lines 153-179): soft
delete in the store, then unconditionally drop both cache keys. -/
def deleteShortUrl (c : Cache) (db : Database) (code : String) : DeleteOut :=
  match modelDeleteReturning db code with
  | some r =>
      ⟨DeleteResp.success r,
       cacheDel (cacheDel c ("short:" ++ code)) ("url:" ++ r.original_url),
       modelDeleteRows db code⟩
  | none => ⟨DeleteResp.notFound, c, modelDeleteRows db code⟩

/-- Response of the full POST /api/shorten pipeline. -/
inductive ShortenResp where
  | globalLimited
  | createLimited
  | blocked (unblockAt : Nat)
  | suspiciousRejected
  | existing (r : UrlRecord)
  | created (r : UrlRecord)
deriving DecidableEq

/-- Embed a controller response into a pipeline response. -/
def shortenRespOfCreate : CreateResp → ShortenResp
  | CreateResp.suspiciousRejected => ShortenResp.suspiciousRejected
  | CreateResp.existing r => ShortenResp.existing r
  | CreateResp.created r => ShortenResp.created r

/-- State and response after the full creation pipeline. -/
structure ShortenOut where
  resp : ShortenResp
  cache : Cache
  db : Database
  inst : Instance
deriving DecidableEq

/-- POST /api/shorten as wired in index.js and url.routes.js: globalLimiter,
then createUrlLimiter, then abuseDetection, then the controller. -/
def handleShorten (c : Cache) (db : Database) (inst : Instance) (now : Nat)
    (ip url : String) (expiresIn : Option Nat) (seeds : Nat → Nat → Nat) : ShortenOut :=
  let g := globalRateLimit c now ip
  if g.1 then
    let cl := createUrlLimiter inst now ip
    if cl.1 then
      match abuseDetection g.2 now ip with
      | (GuardOut.blockedAlready t, c1) => ⟨ShortenResp.blocked t, c1, db, cl.2⟩
      | (GuardOut.blockedNow t, c1) => ⟨ShortenResp.blocked t, c1, db, cl.2⟩
      | (GuardOut.pass, c1) =>
        let o := createShortUrl c1 db now ip url expiresIn seeds
        ⟨shortenRespOfCreate o.resp, o.cache, o.db, cl.2⟩
    else ⟨ShortenResp.createLimited, g.2, db, cl.2⟩
  else ⟨ShortenResp.globalLimited, g.2, db, inst⟩

/-- GET /:shortCode as wired in index.js and redirect.routes.js: only the
globalLimiter stands before the controller — no abuse or blocked-IP check. -/
def handleRedirect (c : Cache) (db : Database) (now : Nat) (ip code : String) :
    RedirectOut :=
  let g := globalRateLimit c now ip
  if g.1 then redirectToOriginal g.2 db now code
  else ⟨RedirectResp.rateLimited, g.2⟩

/-- Iterate the create-tier limiter over a burst of same-IP requests on one
process, conjoining the per-request verdicts. -/
def runCreates : Nat → Instance → Nat → String → Bool × Instance
  | 0, inst, _, _ => (true, inst)
  | n + 1, inst, now, ip =>
      let s := createUrlLimiter inst now ip
      let rest := runCreates n s.2 now ip
      (s.1 && rest.1, rest.2)

/-! ### Concrete scenario constants used by claim witnesses -/

/-- The soft-deleted record used to witness C9. -/
def c9rec : UrlRecord :=
  { id := 1, short_code := "0000000", original_url := "http://a.example/x",
    created_at := 0, expires_at := none, click_count := 0, last_accessed := none,
    creator_ip := "1.2.3.4", is_active := false }

/-- The cached record served to a blocked IP in the C2 counterexample. -/
def c2rec : UrlRecord :=
  { id := 1, short_code := "abc1234", original_url := "https://example.org/",
    created_at := 0, expires_at := none, click_count := 0, last_accessed := none,
    creator_ip := "2.2.2.2", is_active := false }

/-- A cache holding an unexpired blocked:{ip} entry and a cached short code. -/
def c2cache : Cache :=
  ⟨true, [("blocked:1.2.3.4", CacheVal.blockedEntry 3600, 3600),
          ("short:abc1234", CacheVal.urlRec c2rec, 86400)]⟩

/-- The records used in the C6 witness: one active row and its deleted form. -/
def c6rec : UrlRecord :=
  { id := 1, short_code := "abc1234", original_url := "https://example.org/page",
    created_at := 0, expires_at := none, click_count := 0, last_accessed := none,
    creator_ip := "2.2.2.2", is_active := true }

/-- The record created by the first call in the C3 witness. -/
def c3rec : UrlRecord :=
  { id := 1, short_code := "0000000", original_url := "http://example.com/a",
    created_at := 0, expires_at := none, click_count := 0, last_accessed := none,
    creator_ip := "1.2.3.4", is_active := true }

/-- A disabled cache holding one entry, used to refute the universal no-op
claim. -/
def c8cache : Cache := ⟨false, [("k", CacheVal.num 3, 100)]⟩


/-! ### Helper lemmas -/

theorem alphabet_length : alphabet.length = 57 := by decide

theorem alphabet_getD_mem : ∀ m, m < 57 → alphabet.getD m '0' ∈ alphabet := by decide

theorem nanoidChar_mem (n : Nat) : nanoidChar n ∈ alphabet :=
  alphabet_getD_mem _ (Nat.mod_lt _ (by decide))

theorem nanoid_length (len : Nat) (seed : Nat → Nat) : (nanoid len seed).length = len := by
  simp [nanoid, String.length]

theorem nanoid_chars (len : Nat) (seed : Nat → Nat) :
    ∀ ch ∈ (nanoid len seed).data, ch ∈ alphabet := by
  intro ch hch
  simp only [nanoid, List.mem_map] at hch
  obtain ⟨i, -, rfl⟩ := hch
  exact nanoidChar_mem _

theorem firstFresh_some (rows : List UrlRecord) :
    ∀ (cs : List String) (cde : String), firstFresh rows cs = some cde →
      cde ∈ cs ∧ hasCode rows cde = false := by
  intro cs
  induction cs with
  | nil => intro cde h; simp [firstFresh] at h
  | cons x rest ih =>
    intro cde h
    by_cases hx : hasCode rows x
    · simp only [firstFresh, hx, if_true] at h
      obtain ⟨h1, h2⟩ := ih cde h
      exact ⟨List.mem_cons_of_mem _ h1, h2⟩
    · simp only [firstFresh, hx, if_false] at h
      cases h
      exact ⟨List.mem_cons_self _ _, by simpa using hx⟩

theorem firstFresh_none (rows : List UrlRecord) :
    ∀ (cs : List String), firstFresh rows cs = none →
      ∀ x ∈ cs, hasCode rows x = true := by
  intro cs
  induction cs with
  | nil => intro _ x hx; simp at hx
  | cons y rest ih =>
    intro h x hx
    by_cases hy : hasCode rows y
    · simp only [firstFresh, hy, if_true] at h
      rcases List.mem_cons.mp hx with rfl | hx2
      · exact hy
      · exact ih h x hx2
    · simp [firstFresh, hy] at h

theorem firstFresh_all_hit (rows : List UrlRecord) :
    ∀ (cs : List String), (∀ x ∈ cs, hasCode rows x = true) → firstFresh rows cs = none := by
  intro cs
  induction cs with
  | nil => intro _; rfl
  | cons y rest ih =>
    intro h
    have hy := h y (List.mem_cons_self _ _)
    simp only [firstFresh, hy, if_true]
    exact ih (fun x hx => h x (List.mem_cons_of_mem _ hx))

theorem firstFresh_at (rows : List UrlRecord) :
    ∀ (i : Nat) (f : Nat → String) (n : Nat), i < n →
      (∀ j, j < i → hasCode rows (f j) = true) → hasCode rows (f i) = false →
      firstFresh rows ((List.range n).map f) = some (f i) := by
  intro i
  induction i with
  | zero =>
    intro f n hn hprev hfresh
    obtain ⟨m, rfl⟩ := Nat.exists_eq_add_of_lt hn
    rw [List.range_succ_eq_map, List.map_cons]
    simp [firstFresh, hfresh]
  | succ i ih =>
    intro f n hn hprev hfresh
    obtain ⟨m, rfl⟩ := Nat.exists_eq_add_of_lt hn
    rw [List.range_succ_eq_map, List.map_cons, List.map_map]
    have h0 : hasCode rows (f 0) = true := hprev 0 (Nat.succ_pos _)
    simp only [firstFresh, h0, if_true]
    have : (List.range (i + 1 + m)).map (f ∘ Nat.succ) =
        (List.range (i + 1 + m)).map (fun j => f (j + 1)) := by
      simp [Function.comp]
    rw [this]
    exact ih (fun j => f (j + 1)) (i + 1 + m) (by omega)
      (fun j hj => hprev (j + 1) (by omega)) hfresh

theorem generate_len (rows : List UrlRecord) (seeds : Nat → Nat → Nat) (n : Nat) :
    (generateUniqueShortCode rows seeds n).length = 7 ∨
    (generateUniqueShortCode rows seeds n).length = 10 := by
  unfold generateUniqueShortCode
  cases hff : firstFresh rows ((List.range n).map (fun i => nanoid 7 (seeds i))) with
  | none => right; exact nanoid_length _ _
  | some cde =>
    left
    obtain ⟨hmem, -⟩ := firstFresh_some rows _ _ hff
    obtain ⟨i, -, rfl⟩ := List.mem_map.mp hmem
    exact nanoid_length _ _

theorem generate_len7_fresh (rows : List UrlRecord) (seeds : Nat → Nat → Nat) (n : Nat)
    (h : (generateUniqueShortCode rows seeds n).length = 7) :
    hasCode rows (generateUniqueShortCode rows seeds n) = false := by
  unfold generateUniqueShortCode at h ⊢
  cases hff : firstFresh rows ((List.range n).map (fun i => nanoid 7 (seeds i))) with
  | none => rw [hff] at h; simp [nanoid_length] at h
  | some cde => exact (firstFresh_some rows _ _ hff).2

theorem generate_chars (rows : List UrlRecord) (seeds : Nat → Nat → Nat) (n : Nat) :
    ∀ ch ∈ (generateUniqueShortCode rows seeds n).data, ch ∈ alphabet := by
  unfold generateUniqueShortCode
  cases hff : firstFresh rows ((List.range n).map (fun i => nanoid 7 (seeds i))) with
  | none => exact nanoid_chars _ _
  | some cde =>
    obtain ⟨hmem, -⟩ := firstFresh_some rows _ _ hff
    obtain ⟨i, -, rfl⟩ := List.mem_map.mp hmem
    exact nanoid_chars _ _

/-! ### Claim C5 -/

/-- C5: generateUniqueShortCode draws up to maxAttempts length-7 candidates
from the 57-symbol alphabet, returns the first one absent from the store
(never a colliding code while attempts remain), and after exhausting the
attempts returns one unchecked length-10 draw; every result has length 7 or
10 with all characters from the alphabet. -/
theorem c5_generator_contract (rows : List UrlRecord) (seeds : Nat → Nat → Nat) (n : Nat) :
    ((generateUniqueShortCode rows seeds n).length = 7 ∨
     (generateUniqueShortCode rows seeds n).length = 10) ∧
    (∀ ch ∈ (generateUniqueShortCode rows seeds n).data, ch ∈ alphabet) ∧
    ((generateUniqueShortCode rows seeds n).length = 7 →
      hasCode rows (generateUniqueShortCode rows seeds n) = false) ∧
    (∀ i, i < n → (∀ j, j < i → hasCode rows (nanoid 7 (seeds j)) = true) →
      hasCode rows (nanoid 7 (seeds i)) = false →
      generateUniqueShortCode rows seeds n = nanoid 7 (seeds i)) ∧
    ((∀ i, i < n → hasCode rows (nanoid 7 (seeds i)) = true) →
      generateUniqueShortCode rows seeds n = nanoid 10 (seeds n)) := by
  refine ⟨generate_len rows seeds n, generate_chars rows seeds n,
    generate_len7_fresh rows seeds n, ?_, ?_⟩
  · intro i hi hprev hfresh
    unfold generateUniqueShortCode
    rw [firstFresh_at rows i _ n hi hprev hfresh]
  · intro hall
    unfold generateUniqueShortCode
    rw [firstFresh_all_hit rows _ ?_]
    intro x hx
    obtain ⟨i, hi, rfl⟩ := List.mem_map.mp hx
    exact hall i (List.mem_range.mp hi)

/-- Witness for C5: on an empty store the very first draw is returned. -/
theorem c5_generator_contract_witness :
    generateUniqueShortCode [] (fun _ _ => 0) 5 = nanoid 7 ((fun _ _ => 0) 0) :=
  (c5_generator_contract [] (fun _ _ => 0) 5).2.2.2.1 0 (by decide)
    (fun j hj => absurd hj (Nat.not_lt_zero j)) (by decide)

/-! ### Claim C9 -/

/-- C9: the generator's collision query has no is_active filter, so while
attempts remain (a length-7 result) the result collides with no stored row,
active or soft-deleted: a soft-deleted code is never reused. -/
theorem c9_uniqueness_global (rows : List UrlRecord) (seeds : Nat → Nat → Nat) (n : Nat)
    (r : UrlRecord) (hmem : r ∈ rows) (hinactive : r.is_active = false)
    (hlen : (generateUniqueShortCode rows seeds n).length = 7) :
    generateUniqueShortCode rows seeds n ≠ r.short_code := by
  intro heq
  have hfresh := generate_len7_fresh rows seeds n hlen
  rw [hasCode, List.any_eq_false] at hfresh
  exact hfresh r hmem (by rw [heq, beq_self_eq_true])

/-- Witness for C9: the store holds only the soft-deleted code 0000000, the
first draw collides with it, and the second draw 1111111 is returned. -/
theorem c9_uniqueness_global_witness :
    generateUniqueShortCode [c9rec] (fun i _ => i) 5 ≠ "0000000" :=
  c9_uniqueness_global [c9rec] (fun i _ => i) 5 c9rec (by decide) (by decide) (by decide)

/-! ### Cache lemmas -/

theorem cacheSet_enabled (c : Cache) (now : Nat) (k : String) (v : CacheVal) (ttl : Nat) :
    (cacheSet c now k v ttl).enabled = c.enabled := by
  unfold cacheSet; split <;> rfl

theorem cacheGet_disabled (c : Cache) (now : Nat) (k : String) (h : c.enabled = false) :
    cacheGet c now k = none := by
  simp [cacheGet, h]

theorem cacheSet_disabled (c : Cache) (now : Nat) (k : String) (v : CacheVal) (ttl : Nat)
    (h : c.enabled = false) : cacheSet c now k v ttl = c := by
  simp [cacheSet, h]

theorem cacheGet_set_same (c : Cache) (now t : Nat) (k : String) (v : CacheVal) (ttl : Nat) :
    cacheGet (cacheSet c now k v ttl) t k =
      if c.enabled then (if t < now + ttl then some v else none) else none := by
  by_cases h : c.enabled
  · simp [cacheSet, cacheGet, h, rawGet, List.find?]
  · simp only [Bool.not_eq_true] at h
    simp [cacheSet_disabled c now k v ttl h, cacheGet_disabled c t k h, h]

theorem find?_cons_true {α : Type} (p : α → Bool) (e : α) (l : List α) (h : p e = true) :
    (e :: l).find? p = some e := by
  rw [List.find?_cons, h]

theorem find?_cons_false {α : Type} (p : α → Bool) (e : α) (l : List α) (h : p e = false) :
    (e :: l).find? p = l.find? p := by
  rw [List.find?_cons, h]

theorem filter_cons_true {α : Type} (p : α → Bool) (e : α) (l : List α) (h : p e = true) :
    (e :: l).filter p = e :: l.filter p := by
  simp [List.filter_cons, h]

theorem filter_cons_false {α : Type} (p : α → Bool) (e : α) (l : List α) (h : p e = false) :
    (e :: l).filter p = l.filter p := by
  simp [List.filter_cons, h]

theorem find?_filterKeyNe (l : List CacheEntry) (k k2 : String) (h : ¬(k2 = k)) :
    (l.filter (fun e => !(e.1 == k))).find? (fun e => e.1 == k2) =
      l.find? (fun e => e.1 == k2) := by
  induction l with
  | nil => rfl
  | cons e rest ih =>
    by_cases he : e.1 = k
    · have hbek2 : (e.1 == k2) = false :=
        beq_eq_false_iff_ne.mpr (by rw [he]; exact fun hk => h hk.symm)
      rw [filter_cons_false (fun e => !(e.1 == k)) e rest (by simp [he]), ih,
        find?_cons_false (fun e => e.1 == k2) e rest hbek2]
    · rw [filter_cons_true (fun e => !(e.1 == k)) e rest
        (by simp [beq_eq_false_iff_ne.mpr he])]
      cases hbek2 : (e.1 == k2) with
      | true =>
        rw [find?_cons_true (fun e => e.1 == k2) e (rest.filter (fun e => !(e.1 == k))) hbek2,
          find?_cons_true (fun e => e.1 == k2) e rest hbek2]
      | false =>
        rw [find?_cons_false (fun e => e.1 == k2) e (rest.filter (fun e => !(e.1 == k))) hbek2,
          find?_cons_false (fun e => e.1 == k2) e rest hbek2]
        exact ih

theorem find?_filterKey_self (l : List CacheEntry) (k : String) :
    (l.filter (fun e => !(e.1 == k))).find? (fun e => e.1 == k) = none := by
  rw [List.find?_eq_none]
  intro e he
  have := List.of_mem_filter he
  simpa using this

theorem cacheGet_del (c : Cache) (k k2 : String) (now : Nat) :
    cacheGet (cacheDel c k2) now k = if k = k2 then none else cacheGet c now k := by
  by_cases h : k = k2
  · subst h
    rw [if_pos rfl]
    simp only [cacheGet, cacheDel, rawGet, find?_filterKey_self]
    split <;> rfl
  · rw [if_neg h]
    simp only [cacheGet, cacheDel, rawGet, find?_filterKeyNe _ _ _ h]

theorem find?_mapIncr (l : List CacheEntry) (k k2 : String) (n : Nat) (h : ¬(k2 = k)) :
    (l.map (fun e => if e.1 == k then (e.1, CacheVal.num n, e.2.2) else e)).find?
        (fun e => e.1 == k2) = l.find? (fun e => e.1 == k2) := by
  induction l with
  | nil => rfl
  | cons e rest ih =>
    rw [List.map_cons]
    by_cases he : e.1 = k
    · have hbek : (e.1 == k) = true := beq_iff_eq.mpr he
      have hbek2 : (e.1 == k2) = false :=
        beq_eq_false_iff_ne.mpr (by rw [he]; exact fun hk => h hk.symm)
      rw [if_pos hbek,
        find?_cons_false (fun e => e.1 == k2) (e.1, CacheVal.num n, e.2.2)
          (rest.map (fun e => if e.1 == k then (e.1, CacheVal.num n, e.2.2) else e)) hbek2,
        find?_cons_false (fun e => e.1 == k2) e rest hbek2, ih]
    · have hbek : (e.1 == k) = false := beq_eq_false_iff_ne.mpr he
      rw [if_neg (by simp [hbek])]
      cases hbek2 : (e.1 == k2) with
      | true =>
        rw [find?_cons_true (fun e => e.1 == k2) e
            (rest.map (fun e => if e.1 == k then (e.1, CacheVal.num n, e.2.2) else e)) hbek2,
          find?_cons_true (fun e => e.1 == k2) e rest hbek2]
      | false =>
        rw [find?_cons_false (fun e => e.1 == k2) e
            (rest.map (fun e => if e.1 == k then (e.1, CacheVal.num n, e.2.2) else e)) hbek2,
          find?_cons_false (fun e => e.1 == k2) e rest hbek2]
        exact ih

theorem cacheIncrement_enabled (c : Cache) (now : Nat) (k : String) (ttl : Nat) :
    (cacheIncrement c now k ttl).2.enabled = c.enabled := by
  unfold cacheIncrement
  cases h : rawGet c.entries now k with
  | none => rfl
  | some v => cases v <;> rfl

theorem cacheGet_increment_ne (c : Cache) (now now2 : Nat) (k k2 : String) (ttl : Nat)
    (h : ¬(k2 = k)) :
    cacheGet (cacheIncrement c now k ttl).2 now2 k2 = cacheGet c now2 k2 := by
  unfold cacheIncrement
  cases hr : rawGet c.entries now k with
  | none =>
    have hk : (k == k2) = false := beq_eq_false_iff_ne.mpr (fun hk => h hk.symm)
    simp only [cacheGet, rawGet,
      find?_cons_false (fun e => e.1 == k2) (k, CacheVal.num 1, now + ttl)
        (c.entries.filter (fun e => !(e.1 == k))) hk,
      find?_filterKeyNe _ _ _ h]
  | some v =>
    cases v with
    | num n =>
      simp only [cacheGet, rawGet]
      rw [find?_mapIncr _ _ _ _ h]
    | urlRec r => rfl
    | blockedEntry t => rfl

/-! ### Claim C8 -/

/-- C8 counterexample: with caching administratively disabled, delete still
removes the stored entry and incrementWithExpire still bumps the counter and
returns 4 rather than a miss/zero result — neither is a no-op. -/
theorem c8_counterexample :
    c8cache.enabled = false ∧
    (cacheDel c8cache "k").entries = [] ∧ c8cache.entries ≠ [] ∧
    (cacheIncrement c8cache 0 "k" 900).1 = 4 ∧
    (cacheIncrement c8cache 0 "k" 900).2 ≠ c8cache := by decide

/-- C8 as amended: when caching is disabled, get always misses and setWithTtl
leaves the cache unchanged, but delete and incrementWithExpire ignore the
flag entirely — they behave exactly as on an enabled cache, still mutating
the underlying store. -/
theorem c8_disabled_behavior (c : Cache) (now : Nat) (k : String) (v : CacheVal) (ttl : Nat)
    (h : c.enabled = false) :
    cacheGet c now k = none ∧
    cacheSet c now k v ttl = c ∧
    (cacheDel c k).entries = (cacheDel { c with enabled := true } k).entries ∧
    (cacheIncrement c now k ttl).1 = (cacheIncrement { c with enabled := true } now k ttl).1 ∧
    (cacheIncrement c now k ttl).2.entries =
      (cacheIncrement { c with enabled := true } now k ttl).2.entries := by
  refine ⟨cacheGet_disabled c now k h, cacheSet_disabled c now k v ttl h, rfl, ?_, ?_⟩ <;>
  · unfold cacheIncrement
    cases hr : rawGet c.entries now k with
    | none => rfl
    | some val => cases val <;> rfl

theorem append_ne_of_head_ne (p q a b : String) (cp cq : Char)
    (hp : p.data.head? = some cp) (hq : q.data.head? = some cq) (hne : ¬(cp = cq)) :
    ¬(p ++ a = q ++ b) := by
  intro h
  have hd : (p ++ a).data = (q ++ b).data := by rw [h]
  rw [String.data_append, String.data_append] at hd
  have hpn : p.data ≠ [] := by intro hnil; rw [hnil] at hp; cases hp
  have hqn : q.data ≠ [] := by intro hnil; rw [hnil] at hq; cases hq
  have hh : (p.data ++ a.data).head? = (q.data ++ b.data).head? := by rw [hd]
  rw [List.head?_append_of_ne_nil _ hpn, List.head?_append_of_ne_nil _ hqn, hp, hq] at hh
  exact hne (Option.some.inj hh)

theorem blocked_ne_ratelimit (ip ip2 : String) :
    ¬("blocked:" ++ ip = "ratelimit:" ++ ip2) :=
  append_ne_of_head_ne _ _ _ _ 'b' 'r' rfl rfl (by decide)

theorem short_ne_ratelimit (code ip : String) :
    ¬("short:" ++ code = "ratelimit:" ++ ip) :=
  append_ne_of_head_ne _ _ _ _ 's' 'r' rfl rfl (by decide)

/-! ### Claim C1 -/

/-- C1 counterexample: a creation request for a URL matching the
suspicious-pattern set (a bit.ly target) does NOT proceed — the controller
rejects it synchronously (the 400 branch) and no record is created. -/
theorem c1_counterexample :
    (createShortUrl ⟨true, []⟩ ⟨[], 1⟩ 0 "1.2.3.4" "http://bit.ly/abc" none
      (fun _ _ => 0)).resp = CreateResp.suspiciousRejected ∧
    (createShortUrl ⟨true, []⟩ ⟨[], 1⟩ 0 "1.2.3.4" "http://bit.ly/abc" none
      (fun _ _ => 0)).db.rows = [] := by decide

/-- C1 as amended: on a creation request whose URL matches the suspicious
patterns, the guard increments the abuse counter abuse:{ip} AND the
controller rejects the request synchronously with a security error; the
store is left untouched. -/
theorem c1_suspicious_rejects (c : Cache) (db : Database) (now : Nat) (ip url : String)
    (expiresIn : Option Nat) (seeds : Nat → Nat → Nat)
    (h : isSuspiciousUrl url = true) :
    createShortUrl c db now ip url expiresIn seeds =
      ⟨CreateResp.suspiciousRejected, (cacheIncrement c now ("abuse:" ++ ip) 3600).2, db⟩ := by
  simp [createShortUrl, trackSuspiciousUrl, h]

/-- Witness for C1 as amended at a concrete suspicious creation request. -/
theorem c1_suspicious_rejects_witness :
    createShortUrl ⟨true, []⟩ ⟨[], 1⟩ 0 "1.2.3.4" "http://evil.test/malware" none
      (fun _ _ => 0) =
      ⟨CreateResp.suspiciousRejected,
       (cacheIncrement ⟨true, []⟩ 0 ("abuse:" ++ "1.2.3.4") 3600).2, ⟨[], 1⟩⟩ :=
  c1_suspicious_rejects ⟨true, []⟩ ⟨[], 1⟩ 0 "1.2.3.4" "http://evil.test/malware" none
    (fun _ _ => 0) (by decide)

/-! ### Claim C4 -/

/-- C4 counterexample: the create-tier counter lives in the per-process
memory store, not the shared cache, so enforcement fails across instances:
ten same-window creations from one IP are all allowed on instance A, and an
eleventh same-window request from the same IP routed to a fresh instance B
is allowed as well (the same request on instance A would be the rejected
eleventh). -/
theorem c4_counterexample :
    (runCreates 10 ⟨[]⟩ 0 "9.9.9.9").1 = true ∧
    (createUrlLimiter ⟨[]⟩ 0 "9.9.9.9").1 = true := by decide

/-- C4 as amended: the global-tier counter (and, per C1, the abuse counter
and blocked entry) is held in the shared Cache under ratelimit:{ip} — the
global limiter touches no other cache key — while the create-tier counter is
per-process: on a single instance the eleventh in-window creation is
rejected, but a fresh instance accepts a request from the same IP
regardless of history elsewhere. -/
theorem c4_state_location :
    (∀ (c : Cache) (now now2 : Nat) (ip k : String), ¬(k = "ratelimit:" ++ ip) →
      cacheGet (globalRateLimit c now ip).2 now2 k = cacheGet c now2 k) ∧
    (createUrlLimiter (runCreates 10 ⟨[]⟩ 0 "9.9.9.9").2 0 "9.9.9.9").1 = false ∧
    (createUrlLimiter ⟨[]⟩ 0 "9.9.9.9").1 = true := by
  refine ⟨?_, by decide, by decide⟩
  intro c now now2 ip k h
  exact cacheGet_increment_ne c now now2 ("ratelimit:" ++ ip) k 900 h

/-- Witness for C4 as amended: the global limiter leaves the abuse key of
the same IP untouched in a concrete cache. -/
theorem c4_state_location_witness :
    cacheGet (globalRateLimit ⟨true, []⟩ 0 "1.1.1.1").2 0 "abuse:1.1.1.1" =
      cacheGet ⟨true, []⟩ 0 "abuse:1.1.1.1" ∧
    (createUrlLimiter ⟨[]⟩ 0 "9.9.9.9").1 = true :=
  ⟨c4_state_location.1 ⟨true, []⟩ 0 0 "1.1.1.1" "abuse:1.1.1.1" (by decide),
   c4_state_location.2.2⟩

/-! ### Claim C2 -/

/-- C2 counterexample: with an unexpired blocked:{ip} entry in the cache, a
redirect request from that very IP is still served (with a redirect, not a
rejection): the blocked check is not applied to redirect requests. -/
theorem c2_counterexample :
    cacheGet c2cache 10 "blocked:1.2.3.4" = some (CacheVal.blockedEntry 3600) ∧
    (handleRedirect c2cache ⟨[], 1⟩ 10 "1.2.3.4" "abc1234").resp =
      RedirectResp.redirect "https://example.org/" := by decide

/-- C2 as amended: while blocked:{ip} is present (unexpired), every creation
request from that IP that passes the quota tiers is rejected with the stored
unblockAt; redirect requests are never checked against blocked:{ip} — a
cached code is served to a blocked IP as to anyone else. -/
theorem c2_block_scope :
    (∀ (c : Cache) (db : Database) (inst : Instance) (now : Nat) (ip url : String)
       (expiresIn : Option Nat) (seeds : Nat → Nat → Nat) (t : Nat),
      cacheGet c now ("blocked:" ++ ip) = some (CacheVal.blockedEntry t) →
      (globalRateLimit c now ip).1 = true →
      (createUrlLimiter inst now ip).1 = true →
      (handleShorten c db inst now ip url expiresIn seeds).resp = ShortenResp.blocked t) ∧
    (∀ (c : Cache) (db : Database) (now : Nat) (ip code : String) (t : Nat) (r : UrlRecord),
      cacheGet c now ("blocked:" ++ ip) = some (CacheVal.blockedEntry t) →
      (globalRateLimit c now ip).1 = true →
      cacheGet c now ("short:" ++ code) = some (CacheVal.urlRec r) →
      (handleRedirect c db now ip code).resp = RedirectResp.redirect r.original_url) := by
  constructor
  · intro c db inst now ip url expiresIn seeds t hb hg hcl
    have hb2 : cacheGet (globalRateLimit c now ip).2 now ("blocked:" ++ ip) =
        some (CacheVal.blockedEntry t) := by
      simp only [globalRateLimit]
      rw [cacheGet_increment_ne c now now ("ratelimit:" ++ ip) ("blocked:" ++ ip) 900
        (blocked_ne_ratelimit ip ip)]
      exact hb
    simp only [handleShorten, hg, if_true, hcl, abuseDetection, hb2]
  · intro c db now ip code t r hb hg hshort
    have hs2 : cacheGet (globalRateLimit c now ip).2 now ("short:" ++ code) =
        some (CacheVal.urlRec r) := by
      simp only [globalRateLimit]
      rw [cacheGet_increment_ne c now now ("ratelimit:" ++ ip) ("short:" ++ code) 900
        (short_ne_ratelimit code ip)]
      exact hshort
    simp only [handleRedirect, hg, if_true, redirectToOriginal, hs2]

/-- Witness for C2 as amended at the concrete blocked cache. -/
theorem c2_block_scope_witness :
    (handleShorten c2cache ⟨[], 1⟩ ⟨[]⟩ 10 "1.2.3.4" "http://u.example/x" none
      (fun _ _ => 0)).resp = ShortenResp.blocked 3600 ∧
    (handleRedirect c2cache ⟨[], 1⟩ 10 "1.2.3.4" "abc1234").resp =
      RedirectResp.redirect c2rec.original_url :=
  ⟨c2_block_scope.1 c2cache ⟨[], 1⟩ ⟨[]⟩ 10 "1.2.3.4" "http://u.example/x" none
      (fun _ _ => 0) 3600 (by decide) (by decide) (by decide),
   c2_block_scope.2 c2cache ⟨[], 1⟩ 10 "1.2.3.4" "abc1234" 3600 c2rec
      (by decide) (by decide) (by decide)⟩

/-! ### Claims C6 and C10: deletion -/

theorem softDeleteRow_idem (code : String) (r : UrlRecord) :
    softDeleteRow code (softDeleteRow code r) = softDeleteRow code r := by
  by_cases h : r.short_code = code <;> simp [softDeleteRow, h]

theorem map_softDelete_idem (code : String) (rows : List UrlRecord) :
    (rows.map (softDeleteRow code)).map (softDeleteRow code) = rows.map (softDeleteRow code) := by
  rw [List.map_map]
  have h : softDeleteRow code ∘ softDeleteRow code = softDeleteRow code :=
    funext (softDeleteRow_idem code)
  rw [h]

theorem filter_after_softdelete (rows : List UrlRecord) (now : Nat) (code : String) :
    (rows.map (softDeleteRow code)).filter
      (fun r => r.short_code == code && activeMatch now r) = [] := by
  induction rows with
  | nil => rfl
  | cons r rest ih =>
    rw [List.map_cons]
    by_cases hr : r.short_code = code
    · rw [show softDeleteRow code r = { r with is_active := false } by
        simp [softDeleteRow, hr]]
      rw [filter_cons_false (fun r => r.short_code == code && activeMatch now r)
        { r with is_active := false } (rest.map (softDeleteRow code))
        (by simp [activeMatch])]
      exact ih
    · rw [show softDeleteRow code r = r by simp [softDeleteRow, hr]]
      rw [filter_cons_false (fun r => r.short_code == code && activeMatch now r) r
        (rest.map (softDeleteRow code)) (by simp [beq_eq_false_iff_ne.mpr hr])]
      exact ih

theorem filter_absorb {α : Type} (p q : α → Bool) (l : List α) :
    (((l.filter p).filter q).filter p).filter q = (l.filter p).filter q := by
  simp only [List.filter_filter]
  congr 1
  funext a
  cases hpa : p a <;> cases hqa : q a <;> simp [hpa, hqa]

theorem deleteShortUrl_success_shape (c : Cache) (db : Database) (code : String)
    (r : UrlRecord) (h : (deleteShortUrl c db code).resp = DeleteResp.success r) :
    modelDeleteReturning db code = some r ∧
    deleteShortUrl c db code =
      ⟨DeleteResp.success r,
       cacheDel (cacheDel c ("short:" ++ code)) ("url:" ++ r.original_url),
       modelDeleteRows db code⟩ := by
  unfold deleteShortUrl at h ⊢
  cases hh : modelDeleteReturning db code with
  | none => rw [hh] at h; exact absurd h (by simp)
  | some r0 =>
    rw [hh] at h
    have h2 : DeleteResp.success r0 = DeleteResp.success r := h
    cases h2
    exact ⟨rfl, rfl⟩

/-- C6: whenever deleteMapping succeeds, a subsequent resolve of the same
code — at any later (or earlier) instant, cached beforehand or not — yields
NotFound: the store rows for the code are inactive and both cache keys were
unconditionally dropped. -/
theorem c6_delete_invalidates (c : Cache) (db : Database) (code : String) (now2 : Nat)
    (r : UrlRecord) (h : (deleteShortUrl c db code).resp = DeleteResp.success r) :
    (redirectToOriginal (deleteShortUrl c db code).cache (deleteShortUrl c db code).db
      now2 code).resp = RedirectResp.notFound := by
  obtain ⟨-, hshape⟩ := deleteShortUrl_success_shape c db code r h
  rw [hshape]
  have hget : cacheGet (cacheDel (cacheDel c ("short:" ++ code)) ("url:" ++ r.original_url))
      now2 ("short:" ++ code) = none := by
    rw [cacheGet_del]
    by_cases hk : ("short:" ++ code) = ("url:" ++ r.original_url)
    · rw [if_pos hk]
    · rw [if_neg hk, cacheGet_del, if_pos rfl]
  simp only [redirectToOriginal, hget, findByShortCode, modelDeleteRows]
  rw [filter_after_softdelete]
  rfl

/-- Witness for C6: delete a cached, active code, then resolve it. -/
theorem c6_delete_invalidates_witness :
    (redirectToOriginal
      (deleteShortUrl ⟨true, [("short:abc1234", CacheVal.urlRec c6rec, 86400)]⟩
        ⟨[c6rec], 2⟩ "abc1234").cache
      (deleteShortUrl ⟨true, [("short:abc1234", CacheVal.urlRec c6rec, 86400)]⟩
        ⟨[c6rec], 2⟩ "abc1234").db 5 "abc1234").resp = RedirectResp.notFound :=
  c6_delete_invalidates ⟨true, [("short:abc1234", CacheVal.urlRec c6rec, 86400)]⟩
    ⟨[c6rec], 2⟩ "abc1234" 5 { c6rec with is_active := false } (by decide)

/-- C10: deleteMapping is absorptive on success — applying it again to the
same (now soft-deleted) code returns the same record and success response
and leaves cache and store exactly as after the first delete, so repeated
deletes are indistinguishable at the public interface. -/
theorem c10_repeat_delete (c : Cache) (db : Database) (code : String) (r : UrlRecord)
    (h : (deleteShortUrl c db code).resp = DeleteResp.success r) :
    deleteShortUrl (deleteShortUrl c db code).cache (deleteShortUrl c db code).db code =
      deleteShortUrl c db code := by
  obtain ⟨hhead, hshape⟩ := deleteShortUrl_success_shape c db code r h
  rw [hshape]
  have hret2 : modelDeleteReturning (modelDeleteRows db code) code = some r := by
    simp only [modelDeleteReturning, modelDeleteRows]
    rw [map_softDelete_idem]
    exact hhead
  unfold deleteShortUrl
  rw [hret2]
  simp only [modelDeleteRows, cacheDel, map_softDelete_idem, filter_absorb]

/-- Witness for C10: delete the same concrete code twice. -/
theorem c10_repeat_delete_witness :
    deleteShortUrl
      (deleteShortUrl ⟨true, []⟩ ⟨[c6rec], 2⟩ "abc1234").cache
      (deleteShortUrl ⟨true, []⟩ ⟨[c6rec], 2⟩ "abc1234").db "abc1234" =
      deleteShortUrl ⟨true, []⟩ ⟨[c6rec], 2⟩ "abc1234" :=
  c10_repeat_delete ⟨true, []⟩ ⟨[c6rec], 2⟩ "abc1234"
    { c6rec with is_active := false } (by decide)

/-! ### Lemmas on the creation path -/

theorem mostRecent_eq_none (l : List UrlRecord) (h : mostRecent l = none) : l = [] := by
  cases l with
  | nil => rfl
  | cons a t =>
    exfalso
    unfold mostRecent at h
    cases hm : mostRecent t with
    | none =>
      rw [hm] at h
      exact Option.noConfusion (show (some a : Option UrlRecord) = none from h)
    | some s =>
      rw [hm] at h
      have h2 : (if a.created_at < s.created_at then some s else some a) =
          (none : Option UrlRecord) := h
      by_cases hc : a.created_at < s.created_at
      · rw [if_pos hc] at h2; exact Option.noConfusion h2
      · rw [if_neg hc] at h2; exact Option.noConfusion h2

theorem activeMatch_mono (n₁ n₂ : Nat) (r : UrlRecord) (hle : n₁ ≤ n₂)
    (h : activeMatch n₂ r = true) : activeMatch n₁ r = true := by
  unfold activeMatch at h ⊢
  cases hexp : r.expires_at with
  | none => rw [hexp] at h; simpa using h
  | some t =>
    rw [hexp] at h
    simp only [Bool.and_eq_true, decide_eq_true_eq] at h ⊢
    exact ⟨h.1, Nat.lt_of_le_of_lt hle h.2⟩

theorem findByOriginalUrl_append (db : Database) (n₁ n₂ m : Nat) (url : String)
    (r : UrlRecord) (hfo : findByOriginalUrl db n₁ url = none) (hmono : n₁ ≤ n₂)
    (hurl : r.original_url = url) (hact : r.is_active = true) (hexp : r.expires_at = none) :
    findByOriginalUrl { rows := db.rows ++ [r], nextId := m } n₂ url = some r := by
  unfold findByOriginalUrl at hfo ⊢
  have hnil : db.rows.filter (fun x => x.original_url == url && activeMatch n₁ x) = [] :=
    mostRecent_eq_none _ hfo
  have hnil2 : db.rows.filter (fun x => x.original_url == url && activeMatch n₂ x) = [] := by
    rw [List.filter_eq_nil_iff]
    intro x hx hpx
    have h1 := List.filter_eq_nil_iff.mp hnil x hx
    apply h1
    simp only [Bool.and_eq_true] at hpx ⊢
    exact ⟨hpx.1, activeMatch_mono n₁ n₂ x hmono hpx.2⟩
  rw [List.filter_append, hnil2]
  rw [filter_cons_true (fun x => x.original_url == url && activeMatch n₂ x) r []
    (by simp [hurl, activeMatch, hact, hexp])]
  rfl

theorem lookupExisting_none_shape (c : Cache) (db : Database) (now : Nat) (url : String)
    (h : (lookupExisting c db now url).1 = none) :
    lookupExisting c db now url = (none, c) ∧ findByOriginalUrl db now url = none := by
  unfold lookupExisting at h ⊢
  cases hcg : cacheGet c now ("url:" ++ url) with
  | none =>
    rw [hcg] at h
    cases hfo : findByOriginalUrl db now url with
    | some r =>
      rw [hfo] at h
      exact Option.noConfusion (show (some r : Option UrlRecord) = none from h)
    | none => exact ⟨rfl, rfl⟩
  | some v =>
    cases v with
    | urlRec r =>
      rw [hcg] at h
      exact Option.noConfusion (show (some r : Option UrlRecord) = none from h)
    | num n =>
      rw [hcg] at h
      cases hfo : findByOriginalUrl db now url with
      | some r =>
        rw [hfo] at h
        exact Option.noConfusion (show (some r : Option UrlRecord) = none from h)
      | none => exact ⟨rfl, rfl⟩
    | blockedEntry t =>
      rw [hcg] at h
      cases hfo : findByOriginalUrl db now url with
      | some r =>
        rw [hfo] at h
        exact Option.noConfusion (show (some r : Option UrlRecord) = none from h)
      | none => exact ⟨rfl, rfl⟩

theorem createShortUrl_not_suspicious (c : Cache) (db : Database) (now : Nat)
    (ip url : String) (expiresIn : Option Nat) (seeds : Nat → Nat → Nat)
    (hs : isSuspiciousUrl url = false) :
    createShortUrl c db now ip url expiresIn seeds =
      match (lookupExisting c db now url).1, truthy expiresIn with
      | some r, false => ⟨CreateResp.existing r, (lookupExisting c db now url).2, db⟩
      | _, _ => doCreate (lookupExisting c db now url).2 db now ip url expiresIn seeds := by
  unfold createShortUrl trackSuspiciousUrl
  rw [hs]
  rfl

theorem createShortUrl_created_shape (c : Cache) (db : Database) (now : Nat)
    (ip url : String) (seeds : Nat → Nat → Nat) (r : UrlRecord)
    (h : (createShortUrl c db now ip url none seeds).resp = CreateResp.created r) :
    isSuspiciousUrl url = false ∧
    findByOriginalUrl db now url = none ∧
    r = (modelCreate db now url ip none seeds).1 ∧
    createShortUrl c db now ip url none seeds = doCreate c db now ip url none seeds := by
  cases hs : isSuspiciousUrl url with
  | true =>
    exfalso
    unfold createShortUrl trackSuspiciousUrl at h
    rw [hs] at h
    exact CreateResp.noConfusion
      (show CreateResp.suspiciousRejected = CreateResp.created r from h)
  | false =>
    rw [createShortUrl_not_suspicious c db now ip url none seeds hs] at h ⊢
    cases hle : (lookupExisting c db now url).1 with
    | some r0 =>
      rw [hle] at h
      exact absurd (show CreateResp.existing r0 = CreateResp.created r from h) (by simp)
    | none =>
      rw [hle] at h
      obtain ⟨hle2, hfo⟩ := lookupExisting_none_shape c db now url hle
      rw [hle2] at h ⊢
      have h2 : CreateResp.created (modelCreate db now url ip none seeds).1 =
          CreateResp.created r := h
      refine ⟨rfl, hfo, (CreateResp.created.inj h2).symm, rfl⟩

/-! ### Claim C3 -/

/-- C3: with no expiry requested, creation is idempotent — after a call that
created record r for URL U, any later same-URL call with no expiresIn (from
any IP, with any random draws, at any later instant) answers with that very
record marked existing; and a call passing an explicit nonzero expiresIn
always creates a fresh record, whatever the current state. -/
theorem c3_idempotent_no_expiry :
    (∀ (c : Cache) (db : Database) (n₁ n₂ : Nat) (ip₁ ip₂ url : String)
       (s₁ s₂ : Nat → Nat → Nat) (r : UrlRecord),
      n₁ ≤ n₂ →
      (createShortUrl c db n₁ ip₁ url none s₁).resp = CreateResp.created r →
      (createShortUrl (createShortUrl c db n₁ ip₁ url none s₁).cache
        (createShortUrl c db n₁ ip₁ url none s₁).db n₂ ip₂ url none s₂).resp =
        CreateResp.existing r) ∧
    (∀ (c : Cache) (db : Database) (now : Nat) (ip url : String) (e : Nat)
       (seeds : Nat → Nat → Nat),
      isSuspiciousUrl url = false → ¬(e = 0) →
      ∃ rNew, (createShortUrl c db now ip url (some e) seeds).resp =
        CreateResp.created rNew) := by
  constructor
  · intro c db n₁ n₂ ip₁ ip₂ url s₁ s₂ r hmono h1
    obtain ⟨hs, hfo, hr, hshape⟩ := createShortUrl_created_shape c db n₁ ip₁ url s₁ r h1
    subst hr
    rw [hshape]
    rw [createShortUrl_not_suspicious _ _ n₂ ip₂ url none s₂ hs]
    have hget := cacheGet_set_same
      (cacheSet c n₁ ("short:" ++ (modelCreate db n₁ url ip₁ none s₁).1.short_code)
        (CacheVal.urlRec (modelCreate db n₁ url ip₁ none s₁).1) 86400) n₁ n₂
      ("url:" ++ url) (CacheVal.urlRec (modelCreate db n₁ url ip₁ none s₁).1) 86400
    rw [cacheSet_enabled] at hget
    have hfind : findByOriginalUrl (doCreate c db n₁ ip₁ url none s₁).db n₂ url =
        some (modelCreate db n₁ url ip₁ none s₁).1 :=
      findByOriginalUrl_append db n₁ n₂ (db.nextId + 1) url
        (modelCreate db n₁ url ip₁ none s₁).1 hfo hmono rfl rfl rfl
    cases hen : c.enabled with
    | true =>
      rw [hen, if_pos rfl] at hget
      by_cases htt : n₂ < n₁ + 86400
      · rw [if_pos htt] at hget
        have hlu : lookupExisting (doCreate c db n₁ ip₁ url none s₁).cache
            (doCreate c db n₁ ip₁ url none s₁).db n₂ url =
            (some (modelCreate db n₁ url ip₁ none s₁).1,
             (doCreate c db n₁ ip₁ url none s₁).cache) := by
          unfold lookupExisting
          rw [show cacheGet (doCreate c db n₁ ip₁ url none s₁).cache n₂ ("url:" ++ url) =
            some (CacheVal.urlRec (modelCreate db n₁ url ip₁ none s₁).1) from hget]
        rw [hlu]
        rfl
      · rw [if_neg htt] at hget
        have hlu : lookupExisting (doCreate c db n₁ ip₁ url none s₁).cache
            (doCreate c db n₁ ip₁ url none s₁).db n₂ url =
            (some (modelCreate db n₁ url ip₁ none s₁).1,
             cacheSet (doCreate c db n₁ ip₁ url none s₁).cache n₂ ("url:" ++ url)
               (CacheVal.urlRec (modelCreate db n₁ url ip₁ none s₁).1) 86400) := by
          unfold lookupExisting
          rw [show cacheGet (doCreate c db n₁ ip₁ url none s₁).cache n₂ ("url:" ++ url) =
            none from hget, hfind]
        rw [hlu]
        rfl
    | false =>
      rw [hen] at hget
      simp only [Bool.false_eq_true, if_false] at hget
      have hlu : lookupExisting (doCreate c db n₁ ip₁ url none s₁).cache
          (doCreate c db n₁ ip₁ url none s₁).db n₂ url =
          (some (modelCreate db n₁ url ip₁ none s₁).1,
           cacheSet (doCreate c db n₁ ip₁ url none s₁).cache n₂ ("url:" ++ url)
             (CacheVal.urlRec (modelCreate db n₁ url ip₁ none s₁).1) 86400) := by
        unfold lookupExisting
        rw [show cacheGet (doCreate c db n₁ ip₁ url none s₁).cache n₂ ("url:" ++ url) =
          none from hget, hfind]
      rw [hlu]
      rfl
  · intro c db now ip url e seeds hs he
    rw [createShortUrl_not_suspicious c db now ip url (some e) seeds hs]
    have ht : truthy (some e) = true := by simp [truthy, he]
    cases hle : (lookupExisting c db now url).1 with
    | some r0 => rw [ht]; exact ⟨(modelCreate db now url ip (some e) seeds).1, rfl⟩
    | none => rw [ht]; exact ⟨(modelCreate db now url ip (some e) seeds).1, rfl⟩

/-- Witness for C3: create, then create again with no expiry (existing), and
create with an explicit expiry (fresh record). -/
theorem c3_idempotent_no_expiry_witness :
    (createShortUrl (createShortUrl ⟨true, []⟩ ⟨[], 1⟩ 0 "1.2.3.4" "http://example.com/a"
        none (fun _ _ => 0)).cache
      (createShortUrl ⟨true, []⟩ ⟨[], 1⟩ 0 "1.2.3.4" "http://example.com/a"
        none (fun _ _ => 0)).db 5 "5.6.7.8" "http://example.com/a" none
        (fun _ _ => 1)).resp = CreateResp.existing c3rec ∧
    ∃ rNew, (createShortUrl ⟨true, []⟩ ⟨[], 1⟩ 0 "1.2.3.4" "http://example.com/a"
      (some 120) (fun _ _ => 0)).resp = CreateResp.created rNew :=
  ⟨c3_idempotent_no_expiry.1 ⟨true, []⟩ ⟨[], 1⟩ 0 5 "1.2.3.4" "5.6.7.8"
      "http://example.com/a" (fun _ _ => 0) (fun _ _ => 1) c3rec (by decide) (by decide),
   c3_idempotent_no_expiry.2 ⟨true, []⟩ ⟨[], 1⟩ 0 "1.2.3.4" "http://example.com/a" 120
      (fun _ _ => 0) (by decide) (by decide)⟩

/-! ### Claim C7 -/

/-- The cache after doCreate on a disabled cache is unchanged. -/
theorem doCreate_cache_disabled (c : Cache) (db : Database) (now : Nat) (ip url : String)
    (expiresIn : Option Nat) (seeds : Nat → Nat → Nat) (hen : c.enabled = false) :
    (doCreate c db now ip url expiresIn seeds).cache = c := by
  simp only [doCreate]
  rw [cacheSet_disabled c now _ _ 86400 hen, cacheSet_disabled c now _ _ 86400 hen]

/-- C7 counterexample: create with expiresIn = 60 at time 0 against an
enabled cache; at time 61 the store-level query already excludes the record
(logically expired, is_active still true), yet resolve still serves the
redirect from the cache entry written at creation — it does not return
NotFound for every query past the expiry. -/
theorem c7_counterexample :
    (redirectToOriginal
      (createShortUrl ⟨true, []⟩ ⟨[], 1⟩ 0 "1.2.3.4" "http://example.com/page" (some 60)
        (fun _ _ => 0)).cache
      (createShortUrl ⟨true, []⟩ ⟨[], 1⟩ 0 "1.2.3.4" "http://example.com/page" (some 60)
        (fun _ _ => 0)).db 61 "0000000").resp =
      RedirectResp.redirect "http://example.com/page" ∧
    findByShortCode
      (createShortUrl ⟨true, []⟩ ⟨[], 1⟩ 0 "1.2.3.4" "http://example.com/page" (some 60)
        (fun _ _ => 0)).db 61 "0000000" = none ∧
    (∀ x ∈ (createShortUrl ⟨true, []⟩ ⟨[], 1⟩ 0 "1.2.3.4" "http://example.com/page" (some 60)
        (fun _ _ => 0)).db.rows, x.is_active = true) := by decide

/-- C7 as amended: for a record created with expiresIn = 60, resolve
succeeds immediately; a query made more than 60 seconds after creation that
reaches the store (here: caching disabled) returns NotFound although
is_active is still true in every store row — logical expiry is enforced by
the read-time comparison; a query served from a surviving cache entry may
still redirect (see the counterexample). -/
theorem c7_expiry_read_time (c : Cache) (now₀ t : Nat) (ip url : String)
    (seeds : Nat → Nat → Nat) (hen : c.enabled = false)
    (hs : isSuspiciousUrl url = false) :
    ∃ r, (createShortUrl c ⟨[], 1⟩ now₀ ip url (some 60) seeds).resp =
        CreateResp.created r ∧
      (redirectToOriginal (createShortUrl c ⟨[], 1⟩ now₀ ip url (some 60) seeds).cache
        (createShortUrl c ⟨[], 1⟩ now₀ ip url (some 60) seeds).db now₀ r.short_code).resp =
        RedirectResp.redirect url ∧
      (now₀ + 60 < t →
        (redirectToOriginal (createShortUrl c ⟨[], 1⟩ now₀ ip url (some 60) seeds).cache
          (createShortUrl c ⟨[], 1⟩ now₀ ip url (some 60) seeds).db t r.short_code).resp =
          RedirectResp.notFound) ∧
      (∀ x ∈ (createShortUrl c ⟨[], 1⟩ now₀ ip url (some 60) seeds).db.rows,
        x.is_active = true) := by
  have hlu : lookupExisting c ⟨[], 1⟩ now₀ url = (none, c) := by
    unfold lookupExisting
    rw [cacheGet_disabled c now₀ _ hen]
    rfl
  have hshape : createShortUrl c ⟨[], 1⟩ now₀ ip url (some 60) seeds =
      doCreate c ⟨[], 1⟩ now₀ ip url (some 60) seeds := by
    rw [createShortUrl_not_suspicious c ⟨[], 1⟩ now₀ ip url (some 60) seeds hs, hlu]
  have hcache : (createShortUrl c ⟨[], 1⟩ now₀ ip url (some 60) seeds).cache = c := by
    rw [hshape]
    exact doCreate_cache_disabled c ⟨[], 1⟩ now₀ ip url (some 60) seeds hen
  have hdb : (createShortUrl c ⟨[], 1⟩ now₀ ip url (some 60) seeds).db =
      { rows := [(modelCreate ⟨[], 1⟩ now₀ url ip (some 60) seeds).1], nextId := 2 } := by
    rw [hshape]
    rfl
  have hexp : (modelCreate ⟨[], 1⟩ now₀ url ip (some 60) seeds).1.expires_at =
      some (now₀ + 60) := rfl
  have hact : (modelCreate ⟨[], 1⟩ now₀ url ip (some 60) seeds).1.is_active = true := rfl
  refine ⟨(modelCreate ⟨[], 1⟩ now₀ url ip (some 60) seeds).1, ?_, ?_, ?_, ?_⟩
  · rw [hshape]
    rfl
  · rw [hcache, hdb]
    unfold redirectToOriginal
    rw [cacheGet_disabled c now₀ _ hen]
    have hfind : findByShortCode
        { rows := [(modelCreate ⟨[], 1⟩ now₀ url ip (some 60) seeds).1], nextId := 2 } now₀
        (modelCreate ⟨[], 1⟩ now₀ url ip (some 60) seeds).1.short_code =
        some (modelCreate ⟨[], 1⟩ now₀ url ip (some 60) seeds).1 := by
      unfold findByShortCode
      rw [filter_cons_true
        (fun r => r.short_code == (modelCreate ⟨[], 1⟩ now₀ url ip (some 60) seeds).1.short_code
          && activeMatch now₀ r)
        (modelCreate ⟨[], 1⟩ now₀ url ip (some 60) seeds).1 []
        (by simp [activeMatch, hexp, hact])]
      rfl
    rw [hfind]
    rfl
  · intro ht
    rw [hcache, hdb]
    unfold redirectToOriginal
    rw [cacheGet_disabled c t _ hen]
    have hfind : findByShortCode
        { rows := [(modelCreate ⟨[], 1⟩ now₀ url ip (some 60) seeds).1], nextId := 2 } t
        (modelCreate ⟨[], 1⟩ now₀ url ip (some 60) seeds).1.short_code = none := by
      unfold findByShortCode
      rw [filter_cons_false
        (fun r => r.short_code == (modelCreate ⟨[], 1⟩ now₀ url ip (some 60) seeds).1.short_code
          && activeMatch t r)
        (modelCreate ⟨[], 1⟩ now₀ url ip (some 60) seeds).1 []
        (by simp [activeMatch, hexp]; omega)]
      rfl
    rw [hfind]
  · intro x hx
    rw [hdb] at hx
    simp only [List.mem_singleton] at hx
    rw [hx]
    exact hact

/-- Witness for C7 as amended at a concrete disabled-cache scenario. -/
theorem c7_expiry_read_time_witness :
    ∃ r, (createShortUrl ⟨false, []⟩ ⟨[], 1⟩ 0 "1.2.3.4" "http://example.com/page" (some 60)
        (fun _ _ => 0)).resp = CreateResp.created r ∧
      (redirectToOriginal
        (createShortUrl ⟨false, []⟩ ⟨[], 1⟩ 0 "1.2.3.4" "http://example.com/page" (some 60)
          (fun _ _ => 0)).cache
        (createShortUrl ⟨false, []⟩ ⟨[], 1⟩ 0 "1.2.3.4" "http://example.com/page" (some 60)
          (fun _ _ => 0)).db 0 r.short_code).resp =
        RedirectResp.redirect "http://example.com/page" ∧
      (0 + 60 < 61 →
        (redirectToOriginal
          (createShortUrl ⟨false, []⟩ ⟨[], 1⟩ 0 "1.2.3.4" "http://example.com/page" (some 60)
            (fun _ _ => 0)).cache
          (createShortUrl ⟨false, []⟩ ⟨[], 1⟩ 0 "1.2.3.4" "http://example.com/page" (some 60)
            (fun _ _ => 0)).db 61 r.short_code).resp = RedirectResp.notFound) ∧
      (∀ x ∈ (createShortUrl ⟨false, []⟩ ⟨[], 1⟩ 0 "1.2.3.4" "http://example.com/page"
          (some 60) (fun _ _ => 0)).db.rows, x.is_active = true) :=
  c7_expiry_read_time ⟨false, []⟩ 0 61 "1.2.3.4" "http://example.com/page" (fun _ _ => 0)
    (by decide) (by decide)

/-- Witness for C8 as amended, at the concrete disabled cache. -/
theorem c8_disabled_behavior_witness :
    cacheGet c8cache 0 "k" = none ∧
    cacheSet c8cache 0 "k" (CacheVal.num 9) 900 = c8cache ∧
    (cacheDel c8cache "k").entries = (cacheDel { c8cache with enabled := true } "k").entries ∧
    (cacheIncrement c8cache 0 "k" 900).1 =
      (cacheIncrement { c8cache with enabled := true } 0 "k" 900).1 ∧
    (cacheIncrement c8cache 0 "k" 900).2.entries =
      (cacheIncrement { c8cache with enabled := true } 0 "k" 900).2.entries :=
  c8_disabled_behavior c8cache 0 "k" (CacheVal.num 9) 900 (by decide)

end UrlShortener
